import Mathlib

/-!
# Verification of the Polar Alignment stepper-motor controller

Shallow embedding of the motion-control core of the repository
(`mod_1.py`, `stepper-server.py`, `mod_2_test.py`): the travel-limited
pulse loops, the manual-move delay calculation, the position store,
homing, continuous movement start/stop, and the arcmin.arcsec ↔ step
unit conversion.  Python integers are modelled as `ℤ`, Python floats as
`ℚ` (all constants involved are exactly representable and the claims are
robust to float rounding at the magnitudes used), the position file as
`Option String` (absent or its text content).
-/

namespace Polar

/-- `MAX_STEPS` from `mod_1.py` / `StepperController.MAX_STEPS`. -/
def MAX_STEPS : ℤ := 1320000

/-- The travel-limited pulse loop shared by `move_steps` (mod_1.py lines
158-167, stepper-server.py lines 138-146) and the joystick batch loop of
`move_motor` (mod_1.py lines 126-139, stepper-server.py lines 121-129):
each iteration first checks `abs(position + direction) > MAX_STEPS` and
breaks (reporting the limit) if so, otherwise pulses and then increments
the position.  Returns the final position, whether the limit branch was
taken, and the list of positions reached after each individual
increment, in order. -/
def stepLoop (maxSteps dir : ℤ) (pos : ℤ) : ℕ → ℤ × Bool × List ℤ
  | 0 => (pos, false, [])
  | n + 1 =>
    if |pos + dir| > maxSteps then (pos, true, [])
    else
      let r := stepLoop maxSteps dir (pos + dir) n
      (r.1, r.2.1, (pos + dir) :: r.2.2)

/-- `move_steps(steps, speed)` position/limit semantics (mod_1.py lines
141-171): direction is `1` if `steps > 0` else `-1`, the loop runs
`abs(steps)` times.  (Timing, GPIO writes and the final save are
modelled separately.) -/
def move_steps_run (maxSteps pos steps : ℤ) : ℤ × Bool × List ℤ :=
  let dir : ℤ := if steps > 0 then 1 else -1
  stepLoop maxSteps dir pos steps.natAbs

/-- `move_motor(direction, speed, speed_half)` position/limit semantics
(mod_1.py lines 87-139): a fixed batch of 50 limit-checked steps in the
given direction. -/
def move_motor_run (maxSteps pos dir : ℤ) : ℤ × Bool × List ℤ :=
  stepLoop maxSteps dir pos 50

/-- A command hitting the shared position counter: a finite manual move
(`move_steps`) or one joystick batch (`move_motor`). -/
inductive Cmd : Type
  | moveRel (steps : ℤ)
  | joyBatch (dir : ℤ)
deriving DecidableEq, Repr

/-- Run one command from a position: final position plus the trace of
positions after each individual step increment. -/
def runCmd (maxSteps pos : ℤ) : Cmd → ℤ × List ℤ
  | .moveRel steps =>
    let r := move_steps_run maxSteps pos steps
    (r.1, r.2.2)
  | .joyBatch dir =>
    let r := move_motor_run maxSteps pos dir
    (r.1, r.2.2)

/-- Run a sequence of commands, concatenating the step traces. -/
def runSeq (maxSteps pos : ℤ) : List Cmd → ℤ × List ℤ
  | [] => (pos, [])
  | c :: cs =>
    let r := runCmd maxSteps pos c
    let rest := runSeq maxSteps r.1 cs
    (rest.1, r.2 ++ rest.2)

/-- The state of `StepperController` in stepper-server.py relevant to a
single thread executing one call: whether the calling thread currently
holds the controller's single non-reentrant `threading.Lock`
(`self._lock`), the `motor_enabled` flag, the position counter and the
position file. -/
structure ServerState where
  lockHeld : Bool
  motor_enabled : Bool
  current_position : ℤ
  file : Option String
deriving DecidableEq, Repr

/-- `StepperController.enable` (stepper-server.py lines 86-91):
`with self._lock:` then raise the enable pin and set the flag.
Acquiring the non-reentrant lock while the calling thread already holds
it blocks forever, modelled as `none`; on success the lock is released
again on exit from the `with` block. -/
def server_enable (s : ServerState) : Option ServerState :=
  if s.lockHeld then none
  else some { s with motor_enabled := true }

/-- `StepperController.disable` (stepper-server.py lines 93-99): same
lock discipline; lowers the enable pin and saves the position when the
motor was enabled. -/
def server_disable (s : ServerState) : Option ServerState :=
  if s.lockHeld then none
  else if s.motor_enabled then
    some { s with motor_enabled := false, file := some (toString s.current_position) }
  else some s

/-- `StepperController.move_steps` (stepper-server.py lines 131-148):
acquires `self._lock` for the whole move, immediately calls
`self.enable()` (which tries to re-acquire the same non-reentrant
lock), then runs the limit-checked pulse loop and calls
`self.disable()` before releasing.  `none` means the call never
returns. -/
def server_move_steps (s : ServerState) (steps : ℤ) (_speed : ℚ) : Option ServerState :=
  if s.lockHeld then none
  else
    let s0 : ServerState := { s with lockHeld := true }
    (server_enable s0).bind fun s1 =>
      let dir : ℤ := if steps > 0 then 1 else -1
      let r := stepLoop MAX_STEPS dir s1.current_position steps.natAbs
      let s2 : ServerState := { s1 with current_position := r.1 }
      (server_disable s2).bind fun s3 => some { s3 with lockHeld := false }

/-- Whitespace characters stripped by Python's `str.strip` (space, tab,
newline, carriage return, vertical tab, form feed). -/
def pyIsSpace (c : Char) : Bool :=
  c == ' ' || c == '\t' || c == '\n' || c == '\r' || c == Char.ofNat 11 || c == Char.ofNat 12

/-- Python's `str.strip()`: drop whitespace from both ends. -/
def pyStrip (s : String) : String :=
  String.mk (((s.data.dropWhile pyIsSpace).reverse.dropWhile pyIsSpace).reverse)

/-- Helper for `pyDigitsOk`: checks that every underscore separates two
digits (Python allows `1_000` but not `_1`, `1_` or `1__0`). -/
def pyDigitsTail : List Char → Bool
  | [] => true
  | c :: rest =>
    if c.isDigit then pyDigitsTail rest
    else if c == '_' then
      match rest with
      | d :: _ => d.isDigit && pyDigitsTail rest
      | [] => false
    else false

/-- Valid digit sequence for Python's `int` literal parsing. -/
def pyDigitsOk (l : List Char) : Bool :=
  match l with
  | [] => false
  | c :: _ => c.isDigit && pyDigitsTail l

/-- Decimal value of a digit sequence, skipping underscores. -/
def pyDigitsVal (l : List Char) : ℕ :=
  l.foldl (fun acc c => if c.isDigit then acc * 10 + (c.toNat - 48) else acc) 0

/-- Python's built-in `int(string)`: strips surrounding whitespace,
accepts an optional sign followed by decimal digits (with underscore
separators); `none` models the `ValueError` raised otherwise. -/
def pyParseInt (s : String) : Option ℤ :=
  match (pyStrip s).data with
  | '+' :: rest => if pyDigitsOk rest then some (pyDigitsVal rest : ℤ) else none
  | '-' :: rest => if pyDigitsOk rest then some (-(pyDigitsVal rest : ℤ)) else none
  | l => if pyDigitsOk l then some (pyDigitsVal l : ℤ) else none

/-- `load_position` in mod_1.py (lines 65-72), acting on the position
file (`none` = absent): when the file is missing, `save_position(0)`
first writes `"0"`; the content is then read and parsed with Python
`int`, and a `ValueError` yields 0 with the file left as it was.
Returns the loaded value and the resulting file state. -/
def load_position (file : Option String) : ℤ × Option String :=
  match file with
  | none =>
    match pyParseInt "0" with
    | some n => (n, some "0")
    | none => (0, some "0")
  | some s =>
    match pyParseInt s with
    | some n => (n, some s)
    | none => (0, some s)

/-- `StepperController._load_position` in stepper-server.py (lines
77-84): a missing file returns 0 without creating anything; otherwise
the content is parsed with Python `int` and a `ValueError` yields 0.
The file is never written. -/
def server_load_position (file : Option String) : ℤ × Option String :=
  match file with
  | none => (0, none)
  | some s =>
    match pyParseInt s with
    | some n => (n, some s)
    | none => (0, some s)

/-- The homing loop of `reset_position` (mod_1.py lines 200-222): fixed
number of iterations, each first breaking if zero has been reached or
passed in the direction of travel, then breaking on the travel limit,
otherwise stepping. -/
def resetLoop (maxSteps dir : ℤ) (pos : ℤ) : ℕ → ℤ
  | 0 => pos
  | n + 1 =>
    if (dir > 0 ∧ pos ≥ 0) ∨ (dir < 0 ∧ pos ≤ 0) then pos
    else if |pos + dir| > maxSteps then pos
    else resetLoop maxSteps dir (pos + dir) n

/-- An unconditional step loop: `n` iterations of
`current_position += direction` (the zeroing loop of
`go_to_zero` in mod_2_test.py, which has no limit check or early
break). -/
def plainLoop (dir pos : ℤ) : ℕ → ℤ
  | 0 => pos
  | n + 1 => plainLoop dir (pos + dir) n

/-- `reset_position` in mod_1.py (lines 173-229): when already at zero
it prints and returns without touching the file; otherwise it runs the
homing loop, then forces `current_position = 0` unconditionally and
saves.  Returns the final position and file state. -/
def reset_position (maxSteps pos : ℤ) (file : Option String) : ℤ × Option String :=
  let steps_to_zero := -pos
  if steps_to_zero = 0 then (pos, file)
  else
    let dir : ℤ := if steps_to_zero > 0 then 1 else -1
    let _after_loop := resetLoop maxSteps dir pos steps_to_zero.natAbs
    (0, some "0")

/-- `go_to_zero` in mod_2_test.py (lines 436-497), position/file
semantics: runs `abs(-pos)` unconditional steps toward zero, then
forces the position to exactly 0 and saves it.  (The continuous-move
flag clearing and pin writes it also performs are modelled on `CState`
operations separately.) -/
def go_to_zero (pos : ℤ) (_file : Option String) : ℤ × Option String :=
  let steps_to_move := -pos
  let dir : ℤ := if steps_to_move > 0 then 1 else -1
  let _after_loop := plainLoop dir pos steps_to_move.natAbs
  (0, some "0")

/-- Motion and pin state of mod_2_test.py's `StepperController`
relevant to continuous movement.  `mode1/mode2/mode3` are MODE_PIN_1-3;
the default 1/4-step mode is `(false, true, false)`. -/
structure CState where
  continuous_active : Bool
  continuous_direction : ℤ
  continuous_delay : ℚ
  half_speed_mode : Bool
  current_position : ℤ
  enable_pin : Bool
  dir_pin : Bool
  mode1 : Bool
  mode2 : Bool
  mode3 : Bool
  pwm_duty : ℚ
  file : Option String
deriving DecidableEq, Repr

/-- One observable driver action: a PWM duty-cycle change, a microstep
mode-pin write, an enable-pin write, a direction-pin write, or one step
pulse. -/
inductive Action : Type
  | setDuty (d : ℚ)
  | setMode (m1 m2 m3 : Bool)
  | setEnable (b : Bool)
  | setDir (b : Bool)
  | pulse
deriving DecidableEq, Repr

/-- `StepperController._calculate_manual_delay` (mod_2_test.py lines
338-363): base delay 0.0005, speed clamped into [0.1, 1.0], effective
speed `0.1 + 0.9·speed`, half-speed multiplies by 4, result clamped
into [0.00015, 0.01]. -/
def calculate_manual_delay (speed : ℚ) (half_speed : Bool) : ℚ :=
  let manual_base_delay : ℚ := 5/10000
  let speed_value := max (1/10) (min 1 speed)
  let effective_speed := 1/10 + speed_value * (9/10)
  let delay :=
    if half_speed then (manual_base_delay / effective_speed) * 4
    else manual_base_delay / effective_speed
  let min_delay : ℚ := 15/100000
  let max_delay : ℚ := 1/100
  if delay < min_delay then min_delay
  else if delay > max_delay then max_delay
  else delay

/-- `StepperController.start_continuous_movement` (mod_2_test.py lines
277-336): a no-op when continuous movement is already active with the
same direction and half-speed mode; otherwise selects PWM duty and
microstep mode for the speed mode, enables the motor, sets the
direction pin, stores the movement parameters and runs the 8-pulse
ramp-up (each pulse incrementing the position).  Returns the new state
and the list of driver actions performed. -/
def start_continuous_movement (s : CState) (direction : ℤ) (speed : ℚ)
    (half_speed : Bool) : CState × List Action :=
  if s.continuous_active = true ∧ s.continuous_direction = direction ∧
      s.half_speed_mode = half_speed then
    (s, [])
  else
    let s1 := { s with half_speed_mode := half_speed }
    let s2 :=
      if half_speed then
        { s1 with pwm_duty := 50, mode1 := true, mode2 := true, mode3 := true }
      else
        { s1 with pwm_duty := 85, mode1 := false, mode2 := true, mode3 := false }
    let acts1 : List Action :=
      if half_speed then [Action.setDuty 50, Action.setMode true true true]
      else [Action.setDuty 85, Action.setMode false true false]
    let dirPin : Bool := if direction > 0 then true else false
    let delay := calculate_manual_delay speed half_speed
    let s3 :=
      { s2 with enable_pin := true, dir_pin := dirPin,
                continuous_direction := direction, continuous_delay := delay,
                continuous_active := true,
                current_position := s2.current_position + 8 * direction }
    (s3, acts1 ++ [Action.setEnable true, Action.setDir dirPin] ++
      List.replicate 8 Action.pulse)

/-- `StepperController.stop_continuous_movement` (mod_2_test.py lines
365-380): when continuous movement is active, clears the flag, lowers
the enable pin, restores the default 1/4 microstep mode and resets the
PWM duty cycle to the 80% holding level.  The position file is not
touched. -/
def stop_continuous_movement (s : CState) : CState × List Action :=
  if s.continuous_active then
    ({ s with continuous_active := false, enable_pin := false,
              mode1 := false, mode2 := true, mode3 := false, pwm_duty := 80 },
     [Action.setEnable false, Action.setMode false true false, Action.setDuty 80])
  else (s, [])

/-- A concrete controller state with continuous movement active
(direction +1, full speed mode), used to instantiate theorems. -/
def exampleActiveState : CState :=
  { continuous_active := true, continuous_direction := 1, continuous_delay := 1/100,
    half_speed_mode := false, current_position := 42, enable_pin := true,
    dir_pin := true, mode1 := false, mode2 := true, mode3 := false,
    pwm_duty := 85, file := some "0" }

/-- The pulse-interval calculation of `move_steps` in mod_1.py (lines
150-156): `delay = 0.001 / speed`, raised to `0.0001` when smaller,
with no upper clamp. -/
def mod1_move_steps_delay (speed : ℚ) : ℚ :=
  let manual_base_delay : ℚ := 1/1000
  let delay := manual_base_delay / speed
  let min_manual_delay : ℚ := 1/10000
  if delay < min_manual_delay then min_manual_delay else delay

/-- The delay calculation of `StepperController.move_steps` in
stepper-server.py (line 136): `max(0.0001, 0.001 / speed)`. -/
def server_move_steps_delay (speed : ℚ) : ℚ :=
  max (1/10000) (1/1000 / speed)

/-- Modelled from the spec (§4.3), for comparison with the source:
`pulseInterval = clamp(baseDelay / effectiveSpeed, minDelay, maxDelay)`
with `effectiveSpeed = 0.1 + 0.9·speedSetting`. -/
def spec_pulse_interval (baseDelay minDelay maxDelay speed : ℚ) : ℚ :=
  let effectiveSpeed := 1/10 + (9/10) * speed
  min maxDelay (max minDelay (baseDelay / effectiveSpeed))

/-- `STEPS_PER_REV_CALC = int(800 * 10 * 0.96)` (mod_1.py line 53); the
product is exactly 7680, also in Python's float arithmetic. -/
def STEPS_PER_REV_CALC : ℤ := ⌊(800 * 10 * (96/100) : ℚ)⌋

/-- `STEPS_PER_MM` (mod_1.py line 55): steps per mm of travel. -/
def STEPS_PER_MM : ℚ := (STEPS_PER_REV_CALC : ℚ) / 8

/-- `ARCSECONDS_PER_MM` (mod_1.py line 56). -/
def ARCSECONDS_PER_MM : ℚ := (3600 * 360) / (8 * 45)

/-- `STEPS_PER_ARCSECOND` (mod_1.py line 57). -/
def STEPS_PER_ARCSECOND : ℚ := STEPS_PER_MM / ARCSECONDS_PER_MM

/-- Python's built-in `round` to an integer: nearest integer, ties to
even, on exact rationals. -/
def pyRound (q : ℚ) : ℤ :=
  let f := ⌊q⌋
  let r := q - (f : ℚ)
  if r < 1/2 then f
  else if 1/2 < r then f + 1
  else if f % 2 = 0 then f else f + 1

/-- Python's float `%` for a positive right operand:
`x - y * ⌊x / y⌋`. -/
def pyFloatMod (x y : ℚ) : ℚ := x - y * (⌊x / y⌋ : ℚ)

/-- `arc_to_steps(arcmin_sec)` (mod_1.py lines 232-237,
stepper-server.py lines 171-176): integer part of `|v|` is arcminutes,
fractional part × 100 is arcseconds, the total arcsecond count is
converted at `STEPS_PER_ARCSECOND` and rounded, and the input's sign is
reapplied to the result. -/
def arc_to_steps (v : ℚ) : ℤ :=
  let arcmin : ℤ := ⌊|v|⌋
  let arcsec : ℚ := (|v| - (arcmin : ℚ)) * 100
  let total_arcseconds : ℚ := (arcmin : ℚ) * 60 + arcsec
  let steps : ℤ := pyRound (total_arcseconds * STEPS_PER_ARCSECOND)
  if 0 ≤ v then steps else -steps

/-- `steps_to_arc(steps)` (mod_1.py lines 240-244): magnitude in
arcseconds, split into whole arcminutes (`int(arcseconds // 60)`) and
the remaining arcseconds (`arcseconds % 60`); the sign is carried
separately by the caller. -/
def steps_to_arc (steps : ℤ) : ℤ × ℚ :=
  let mag : ℤ := |steps|
  let arcseconds : ℚ := (mag : ℚ) / STEPS_PER_ARCSECOND
  (⌊arcseconds / 60⌋, pyFloatMod arcseconds 60)

/-- The arcmin.arcsec notation value rebuilt from `steps_to_arc`'s
output with the separately carried sign reapplied (the convention of
`get_position_arc` in mod_2_test.py). -/
def arcValue (steps : ℤ) : ℚ :=
  let p := steps_to_arc steps
  let mag : ℚ := (p.1 : ℚ) + p.2 / 100
  if steps < 0 then -mag else mag

theorem stepLoop_trace_bounded (maxSteps dir : ℤ) :
    ∀ (n : ℕ) (pos : ℤ), ∀ p ∈ (stepLoop maxSteps dir pos n).2.2, |p| ≤ maxSteps := by
  intro n
  induction n with
  | zero => intro pos p hp; simp [stepLoop] at hp
  | succ n ih =>
    intro pos p hp
    by_cases h : |pos + dir| > maxSteps
    · simp [stepLoop, h] at hp
    · simp only [stepLoop, if_neg h, List.mem_cons] at hp
      rcases hp with rfl | hp
      · exact le_of_not_lt h
      · exact ih (pos + dir) p hp

theorem stepLoop_final_bounded (maxSteps dir : ℤ) :
    ∀ (n : ℕ) (pos : ℤ), |pos| ≤ maxSteps → |(stepLoop maxSteps dir pos n).1| ≤ maxSteps := by
  intro n
  induction n with
  | zero => intro pos h0; simpa [stepLoop] using h0
  | succ n ih =>
    intro pos h0
    by_cases h : |pos + dir| > maxSteps
    · simpa [stepLoop, h] using h0
    · simpa only [stepLoop, if_neg h] using ih (pos + dir) (le_of_not_lt h)

theorem runSeq_bounded (maxSteps : ℤ) :
    ∀ (cmds : List Cmd) (pos : ℤ), |pos| ≤ maxSteps →
      |(runSeq maxSteps pos cmds).1| ≤ maxSteps ∧
      ∀ p ∈ (runSeq maxSteps pos cmds).2, |p| ≤ maxSteps := by
  intro cmds
  induction cmds with
  | nil => intro pos h0; exact ⟨by simpa [runSeq] using h0, by simp [runSeq]⟩
  | cons c cs ih =>
    intro pos h0
    have hc : |(runCmd maxSteps pos c).1| ≤ maxSteps ∧
        ∀ p ∈ (runCmd maxSteps pos c).2, |p| ≤ maxSteps := by
      cases c with
      | moveRel steps =>
        exact ⟨stepLoop_final_bounded _ _ _ _ h0, stepLoop_trace_bounded _ _ _ _⟩
      | joyBatch dir =>
        exact ⟨stepLoop_final_bounded _ _ _ _ h0, stepLoop_trace_bounded _ _ _ _⟩
    obtain ⟨hrest1, hrest2⟩ := ih (runCmd maxSteps pos c).1 hc.1
    refine ⟨by simpa [runSeq] using hrest1, ?_⟩
    intro p hp
    simp only [runSeq, List.mem_append] at hp
    rcases hp with hp | hp
    · exact hc.2 p hp
    · exact hrest2 p hp

/-- C1: for every sequence of `move_relative` (`move_steps`) and
joystick-batch (`move_motor`) calls starting from a seed position with
`|StepCount| ≤ MAX_STEPS`, the invariant `|StepCount| ≤ MAX_STEPS` holds
after every individual step increment (each recorded trace position) and
at the end, because `abs(position + direction) > MAX_STEPS` is checked
before each increment. -/
theorem move_sequences_respect_limit (maxSteps pos : ℤ) (cmds : List Cmd)
    (h0 : |pos| ≤ maxSteps) :
    (∀ p ∈ (runSeq maxSteps pos cmds).2, |p| ≤ maxSteps) ∧
    |(runSeq maxSteps pos cmds).1| ≤ maxSteps := by
  obtain ⟨h1, h2⟩ := runSeq_bounded maxSteps cmds pos h0
  exact ⟨h2, h1⟩

/-- Witness for C1: a concrete two-command sequence from position 1319990
stays within the limit. -/
theorem move_sequences_respect_limit_witness :
    (∀ p ∈ (runSeq 1320000 1319990 [Cmd.moveRel 100, Cmd.joyBatch (-1)]).2, |p| ≤ 1320000) ∧
    |(runSeq 1320000 1319990 [Cmd.moveRel 100, Cmd.joyBatch (-1)]).1| ≤ 1320000 :=
  move_sequences_respect_limit 1320000 1319990 [Cmd.moveRel 100, Cmd.joyBatch (-1)]
    (by decide)

theorem stepLoop_up_truncates (maxSteps : ℤ) :
    ∀ (n : ℕ) (pos : ℤ), -maxSteps ≤ pos → pos ≤ maxSteps → maxSteps < pos + n →
      (stepLoop maxSteps 1 pos n).1 = maxSteps ∧ (stepLoop maxSteps 1 pos n).2.1 = true := by
  intro n
  induction n with
  | zero => intro pos h1 h2 h3; exfalso; omega
  | succ n ih =>
    intro pos h1 h2 h3
    by_cases h : |pos + 1| > maxSteps
    · have h' := lt_abs.mp h
      have hpos : pos = maxSteps := by omega
      subst hpos
      simp [stepLoop, h]
    · have h'' := abs_le.mp (le_of_not_lt h)
      have hrec := ih (pos + 1) (by omega) (by omega) (by omega)
      simpa [stepLoop, h] using hrec

theorem stepLoop_neg_mirror (maxSteps dir : ℤ) :
    ∀ (n : ℕ) (pos : ℤ),
      (stepLoop maxSteps (-dir) (-pos) n).1 = -((stepLoop maxSteps dir pos n).1) ∧
      (stepLoop maxSteps (-dir) (-pos) n).2.1 = (stepLoop maxSteps dir pos n).2.1 := by
  intro n
  induction n with
  | zero => intro pos; simp [stepLoop]
  | succ n ih =>
    intro pos
    have hkey : -pos + -dir = -(pos + dir) := by ring
    simp only [stepLoop, hkey, abs_neg]
    by_cases h : |pos + dir| > maxSteps
    · simp [if_pos h]
    · simp only [if_neg h]
      exact ⟨(ih (pos + dir)).1, (ih (pos + dir)).2⟩

theorem stepLoop_down_truncates (maxSteps : ℤ) (n : ℕ) (pos : ℤ)
    (h1 : -maxSteps ≤ pos) (h2 : pos ≤ maxSteps) (h3 : pos - n < -maxSteps) :
    (stepLoop maxSteps (-1) pos n).1 = -maxSteps ∧
    (stepLoop maxSteps (-1) pos n).2.1 = true := by
  have hm := stepLoop_neg_mirror maxSteps 1 n (-pos)
  have hup := stepLoop_up_truncates maxSteps n (-pos) (by omega) (by omega) (by omega)
  simp only [neg_neg] at hm
  refine ⟨?_, ?_⟩
  · rw [hm.1, hup.1]
  · rw [hm.2, hup.2]

/-- C3: a `move_steps` move that would cross the travel limit is
truncated at the boundary and reports the limit: from any in-range
position, a positive move crossing `maxSteps` ends exactly at
`maxSteps` (a negative move crossing `-maxSteps` ends at `-maxSteps`)
with the limit branch taken.  Instantiated at `MAX_STEPS = 1000`,
`StepCount = 950`, `move_relative(100)` in the witness: it stops at
exactly 1000 (not 1050, not 999) and reports LimitReached. -/
theorem move_relative_truncates_at_limit (maxSteps pos steps : ℤ)
    (h0 : |pos| ≤ maxSteps)
    (hcross : (0 < steps ∧ maxSteps < pos + steps) ∨ (steps < 0 ∧ pos + steps < -maxSteps)) :
    (move_steps_run maxSteps pos steps).1 = (if 0 < steps then maxSteps else -maxSteps) ∧
    (move_steps_run maxSteps pos steps).2.1 = true := by
  have h0' := abs_le.mp h0
  rcases hcross with ⟨hs, hc⟩ | ⟨hs, hc⟩
  · have hup := stepLoop_up_truncates maxSteps steps.natAbs pos h0'.1 h0'.2 (by omega)
    simp only [move_steps_run, if_pos (show steps > 0 from hs), if_pos hs]
    exact hup
  · have hdown := stepLoop_down_truncates maxSteps steps.natAbs pos h0'.1 h0'.2 (by omega)
    simp only [move_steps_run, if_neg (show ¬ steps > 0 by omega),
      if_neg (show ¬ 0 < steps by omega)]
    exact hdown

/-- Witness for C3: the spec's own numbers, `MAX_STEPS = 1000`,
`StepCount = 950`, a move of `+100` steps: final position exactly 1000,
limit reported. -/
theorem move_relative_truncates_at_limit_witness :
    (move_steps_run 1000 950 100).1 = 1000 ∧ (move_steps_run 1000 950 100).2.1 = true := by
  have h := move_relative_truncates_at_limit 1000 950 100 (by decide)
    (Or.inl ⟨by decide, by decide⟩)
  simpa using h

/-- C2 (the code contradicts the claim): in stepper-server.py every
call to `move_steps` deadlocks instead of returning — it holds the
non-reentrant `self._lock` and then calls `self.enable()`, which blocks
forever re-acquiring the same lock (and `self.disable()` would do the
same), so no call ever runs to step-budget exhaustion, cancellation or
the limit. -/
theorem server_move_steps_never_returns (s : ServerState) (steps : ℤ) (speed : ℚ) :
    server_move_steps s steps speed = none := by
  by_cases h : s.lockHeld
  · simp [server_move_steps, h]
  · simp [server_move_steps, server_enable, h]

/-- C5 counterexample: loading a store whose content `"abc"` is
unparsable returns 0 but leaves the file exactly as it was — still
unparsable — in both mod_1.py's `load_position` and stepper-server.py's
`_load_position`; the store is not reinitialized. -/
theorem load_no_reinit_counterexample :
    load_position (some "abc") = (0, some "abc") ∧
    server_load_position (some "abc") = (0, some "abc") ∧
    pyParseInt "abc" = none := by
  refine ⟨by decide, by decide, by decide⟩

/-- C5 amended: `load` returns 0 whenever the file is absent or its
content is unparsable, and never raises (it is total); but the store is
rewritten only by mod_1's `load_position` and only when the file is
absent — unparsable content is left in place, and stepper-server's
`_load_position` never writes at all. -/
theorem load_returns_zero_amended (s : String) (h : pyParseInt s = none) :
    load_position (some s) = (0, some s) ∧
    server_load_position (some s) = (0, some s) ∧
    load_position none = (0, some "0") ∧
    server_load_position none = (0, none) := by
  refine ⟨?_, ?_, by decide, by decide⟩
  · simp [load_position, h]
  · simp [server_load_position, h]

/-- Witness for C5 amended, at the concrete unparsable content
`"abc"`. -/
theorem load_returns_zero_amended_witness :
    load_position (some "abc") = (0, some "abc") ∧
    server_load_position (some "abc") = (0, some "abc") ∧
    load_position none = (0, some "0") ∧
    server_load_position none = (0, none) :=
  load_returns_zero_amended "abc" (by decide)

/-- C6 counterexample: `reset_position` invoked at `StepCount = 0` over
a stale store holding `"5"` takes the early-return path and does not
persist — the store still reads 5 while `StepCount` is 0. -/
theorem go_to_zero_persists_counterexample :
    reset_position 1320000 0 (some "5") = (0, some "5") ∧
    (some "5" : Option String) ≠ some "0" := by
  refine ⟨by decide, by decide⟩

/-- C6 amended: homing always terminates with `StepCount` exactly 0
(forced, regardless of the loop's outcome); mod_2_test's `go_to_zero`
always persists 0, while mod_1's `reset_position` persists only when
the starting position was nonzero — when already at zero it returns
early leaving the store untouched. -/
theorem go_to_zero_amended (maxSteps pos : ℤ) (file : Option String)
    (h : |pos| ≤ maxSteps) :
    go_to_zero pos file = (0, some "0") ∧
    (reset_position maxSteps pos file).1 = 0 ∧
    (pos ≠ 0 → reset_position maxSteps pos file = (0, some "0")) := by
  refine ⟨rfl, ?_, ?_⟩
  · by_cases hp : pos = 0
    · subst hp; simp [reset_position]
    · simp [reset_position, hp]
  · intro hp
    simp [reset_position, hp]

/-- Witness for C6 amended, from starting position 5 with an absent
store. -/
theorem go_to_zero_amended_witness :
    go_to_zero 5 none = (0, some "0") ∧
    (reset_position 1320000 5 none).1 = 0 ∧
    ((5 : ℤ) ≠ 0 → reset_position 1320000 5 none = (0, some "0")) :=
  go_to_zero_amended 1320000 5 none (by decide)

/-- C8: `start_continuous_movement` is idempotent: when continuous
movement is already active with the identical direction and the same
half-speed mode, the call is a no-op — no enable, direction-pin, mode
or duty action is emitted and the entire motion state is unchanged. -/
theorem start_continuous_movement_idempotent (s : CState) (direction : ℤ)
    (speed : ℚ) (half_speed : Bool) (h1 : s.continuous_active = true)
    (h2 : s.continuous_direction = direction) (h3 : s.half_speed_mode = half_speed) :
    start_continuous_movement s direction speed half_speed = (s, []) := by
  simp [start_continuous_movement, h1, h2, h3]

/-- Witness for C8: a second identical start on an active state. -/
theorem start_continuous_movement_idempotent_witness :
    start_continuous_movement exampleActiveState 1 (9/10) false =
      (exampleActiveState, []) :=
  start_continuous_movement_idempotent exampleActiveState 1 (9/10) false rfl rfl rfl

/-- C9 counterexample: stopping continuous movement from an active
state at position 42 whose store holds `"0"` leaves the store at `"0"`:
the position is not persisted at this disable event, so the persisted
position does not converge to `StepCount` here. -/
theorem stop_no_persist_counterexample :
    (stop_continuous_movement exampleActiveState).1.file = some "0" ∧
    (stop_continuous_movement exampleActiveState).1.current_position = 42 ∧
    (some "0" : Option String) ≠ some "42" := by
  refine ⟨by decide, by decide, by decide⟩

/-- C9 amended: when continuous movement is active,
`stop_continuous_movement` clears the active flag, lowers the enable
pin, restores the default 1/4 microstep mode `(LOW, HIGH, LOW)` and the
80% holding duty cycle — but it does not persist the position: the file
and the step counter are left unchanged. -/
theorem stop_continuous_movement_amended (s : CState)
    (h : s.continuous_active = true) :
    (stop_continuous_movement s).1.continuous_active = false ∧
    (stop_continuous_movement s).1.enable_pin = false ∧
    (stop_continuous_movement s).1.mode1 = false ∧
    (stop_continuous_movement s).1.mode2 = true ∧
    (stop_continuous_movement s).1.mode3 = false ∧
    (stop_continuous_movement s).1.pwm_duty = 80 ∧
    (stop_continuous_movement s).1.file = s.file ∧
    (stop_continuous_movement s).1.current_position = s.current_position := by
  simp [stop_continuous_movement, h]

/-- Witness for C9 amended, at the concrete active state. -/
theorem stop_continuous_movement_amended_witness :
    (stop_continuous_movement exampleActiveState).1.continuous_active = false ∧
    (stop_continuous_movement exampleActiveState).1.enable_pin = false ∧
    (stop_continuous_movement exampleActiveState).1.mode1 = false ∧
    (stop_continuous_movement exampleActiveState).1.mode2 = true ∧
    (stop_continuous_movement exampleActiveState).1.mode3 = false ∧
    (stop_continuous_movement exampleActiveState).1.pwm_duty = 80 ∧
    (stop_continuous_movement exampleActiveState).1.file = exampleActiveState.file ∧
    (stop_continuous_movement exampleActiveState).1.current_position =
      exampleActiveState.current_position :=
  stop_continuous_movement_amended exampleActiveState rfl

/-- C4 counterexample: at `speedSetting = 1/2` the code's pulse
interval is 1/500 s but the claimed clamp formula gives 1/550 s, and at
`speedSetting = 1/100 ∈ (0,1]` the code's interval is 1/10 s, above the
claimed upper bound `maxDelay = 0.02 s`: `move_steps` uses neither the
`0.1 + 0.9·speed` mapping nor an upper clamp. -/
theorem move_steps_delay_counterexample :
    mod1_move_steps_delay (1/2) = 1/500 ∧
    spec_pulse_interval (1/1000) (1/10000) (1/50) (1/2) = 1/550 ∧
    ((1/500 : ℚ) ≠ 1/550) ∧
    mod1_move_steps_delay (1/100) = 1/10 ∧
    ¬ (mod1_move_steps_delay (1/100) ≤ 1/50) := by
  refine ⟨?_, ?_, ?_, ?_, ?_⟩ <;>
    norm_num [mod1_move_steps_delay, spec_pulse_interval, min_def, max_def]

/-- C4 amended: for `speedSetting ∈ (0,1]`, `move_steps` computes its
pulse interval as plain `baseDelay / speedSetting` with
`baseDelay = 0.001 s`: the lower clamp at 0.0001 s never engages on
this range, there is no upper clamp and no `0.1 + 0.9·speed` mapping
(those belong to the joystick batch move and the continuous-movement
delay); stepper-server.py's `move_steps` computes the same value. -/
theorem move_steps_delay_amended (speed : ℚ) (h1 : 0 < speed) (h2 : speed ≤ 1) :
    mod1_move_steps_delay speed = (1/1000) / speed ∧
    (1/1000 : ℚ) ≤ mod1_move_steps_delay speed ∧
    server_move_steps_delay speed = mod1_move_steps_delay speed := by
  have hkey : (1/1000 : ℚ) ≤ (1/1000) / speed := by
    rw [le_div_iff₀ h1]
    nlinarith
  have hmin : ¬ ((1/1000 : ℚ) / speed < 1/10000) :=
    not_lt.mpr (le_trans (by norm_num) hkey)
  have e1 : mod1_move_steps_delay speed = (1/1000) / speed := by
    simp only [mod1_move_steps_delay]
    rw [if_neg hmin]
  refine ⟨e1, by rw [e1]; exact hkey, ?_⟩
  rw [e1, server_move_steps_delay, max_eq_right (le_trans (by norm_num) hkey)]

/-- Witness for C4 amended, at `speedSetting = 1/2`. -/
theorem move_steps_delay_amended_witness :
    mod1_move_steps_delay (1/2) = (1/1000) / (1/2) ∧
    (1/1000 : ℚ) ≤ mod1_move_steps_delay (1/2) ∧
    server_move_steps_delay (1/2) = mod1_move_steps_delay (1/2) :=
  move_steps_delay_amended (1/2) (by norm_num) (by norm_num)

theorem STEPS_PER_REV_CALC_eq : STEPS_PER_REV_CALC = 7680 := by
  have h : (800 * 10 * (96/100) : ℚ) = ((7680 : ℤ) : ℚ) := by norm_num
  rw [STEPS_PER_REV_CALC, h, Int.floor_intCast]

theorem STEPS_PER_ARCSECOND_eq : STEPS_PER_ARCSECOND = 4/15 := by
  rw [STEPS_PER_ARCSECOND, STEPS_PER_MM, ARCSECONDS_PER_MM, STEPS_PER_REV_CALC_eq]
  norm_num

theorem pyRound_intCast (n : ℤ) : pyRound ((n : ℚ)) = n := by
  norm_num [pyRound, Int.floor_intCast]

theorem arc_to_steps_eval (m : ℤ) (r : ℚ) (hm : 0 ≤ m) (hr0 : 0 ≤ r) (hr1 : r < 60) :
    arc_to_steps ((m : ℚ) + r / 100) =
      pyRound (((m : ℚ) * 60 + r) * STEPS_PER_ARCSECOND) := by
  have hmq : (0:ℚ) ≤ (m:ℚ) := by exact_mod_cast hm
  have hdiv0 : (0:ℚ) ≤ r / 100 := by positivity
  have hdiv1 : r / 100 < 1 := by
    rw [div_lt_one (by norm_num : (0:ℚ) < 100)]
    linarith
  have hnn : (0:ℚ) ≤ (m:ℚ) + r / 100 := by linarith
  have habs : |(m:ℚ) + r / 100| = (m:ℚ) + r / 100 := abs_of_nonneg hnn
  have hfl : ⌊(m:ℚ) + r / 100⌋ = m := by
    rw [add_comm, Int.floor_add_int,
      Int.floor_eq_zero_iff.mpr (Set.mem_Ico.mpr ⟨hdiv0, hdiv1⟩), zero_add]
  simp only [arc_to_steps, habs, hfl]
  rw [if_pos hnn]
  congr 1
  ring

theorem arc_to_steps_eval_neg (m : ℤ) (r : ℚ) (hm : 0 ≤ m) (hr0 : 0 ≤ r) (hr1 : r < 60) :
    arc_to_steps (-((m : ℚ) + r / 100)) =
      -pyRound (((m : ℚ) * 60 + r) * STEPS_PER_ARCSECOND) := by
  have hmq : (0:ℚ) ≤ (m:ℚ) := by exact_mod_cast hm
  have hdiv0 : (0:ℚ) ≤ r / 100 := by positivity
  have hnn : (0:ℚ) ≤ (m:ℚ) + r / 100 := by linarith
  rcases eq_or_lt_of_le hnn with heq | hpos
  · have hm0 : (m:ℚ) = 0 := by linarith
    have hq : r / 100 = 0 := by linarith
    have hrz : r = 0 := by linarith
    have hmz : m = 0 := by exact_mod_cast hm0
    subst hmz
    subst hrz
    norm_num [arc_to_steps, pyRound]
  · have hneg : ¬ ((0:ℚ) ≤ -((m:ℚ) + r / 100)) := by linarith
    have hdiv1 : r / 100 < 1 := by
      rw [div_lt_one (by norm_num : (0:ℚ) < 100)]
      linarith
    have habs : |(-((m:ℚ) + r / 100))| = (m:ℚ) + r / 100 := by
      rw [abs_neg]
      exact abs_of_nonneg hnn
    have hfl : ⌊(m:ℚ) + r / 100⌋ = m := by
      rw [add_comm, Int.floor_add_int,
        Int.floor_eq_zero_iff.mpr (Set.mem_Ico.mpr ⟨hdiv0, hdiv1⟩), zero_add]
    simp only [arc_to_steps, habs, hfl]
    rw [if_neg hneg]
    congr 2
    ring

theorem arc_roundtrip_exact (s : ℤ) : arc_to_steps (arcValue s) = s := by
  have hcpos : (0:ℚ) < STEPS_PER_ARCSECOND := by
    rw [STEPS_PER_ARCSECOND_eq]
    norm_num
  have habs_nn : (0:ℚ) ≤ ((|s| : ℤ) : ℚ) := by exact_mod_cast abs_nonneg s
  have ha : (0:ℚ) ≤ ((|s| : ℤ) : ℚ) / STEPS_PER_ARCSECOND := div_nonneg habs_nn hcpos.le
  have hm : 0 ≤ ⌊((|s| : ℤ) : ℚ) / STEPS_PER_ARCSECOND / 60⌋ :=
    Int.floor_nonneg.mpr (div_nonneg ha (by norm_num))
  have hfl := Int.floor_le (((|s| : ℤ) : ℚ) / STEPS_PER_ARCSECOND / 60)
  have hfu := Int.lt_floor_add_one (((|s| : ℤ) : ℚ) / STEPS_PER_ARCSECOND / 60)
  have hr0 : 0 ≤ pyFloatMod (((|s| : ℤ) : ℚ) / STEPS_PER_ARCSECOND) 60 := by
    simp only [pyFloatMod]
    linarith
  have hr1 : pyFloatMod (((|s| : ℤ) : ℚ) / STEPS_PER_ARCSECOND) 60 < 60 := by
    simp only [pyFloatMod]
    linarith
  have hval : arcValue s =
      if s < 0 then
        -((⌊((|s| : ℤ) : ℚ) / STEPS_PER_ARCSECOND / 60⌋ : ℚ) +
          pyFloatMod (((|s| : ℤ) : ℚ) / STEPS_PER_ARCSECOND) 60 / 100)
      else
        ((⌊((|s| : ℤ) : ℚ) / STEPS_PER_ARCSECOND / 60⌋ : ℚ) +
          pyFloatMod (((|s| : ℤ) : ℚ) / STEPS_PER_ARCSECOND) 60 / 100) := rfl
  have hsum : ((⌊((|s| : ℤ) : ℚ) / STEPS_PER_ARCSECOND / 60⌋ : ℚ) * 60 +
      pyFloatMod (((|s| : ℤ) : ℚ) / STEPS_PER_ARCSECOND) 60) =
      ((|s| : ℤ) : ℚ) / STEPS_PER_ARCSECOND := by
    simp only [pyFloatMod]
    ring
  by_cases hs : s < 0
  · rw [hval, if_pos hs, arc_to_steps_eval_neg _ _ hm hr0 hr1, hsum,
      div_mul_cancel₀ _ hcpos.ne', pyRound_intCast, abs_of_neg hs, neg_neg]
  · rw [hval, if_neg hs, arc_to_steps_eval _ _ hm hr0 hr1, hsum,
      div_mul_cancel₀ _ hcpos.ne', pyRound_intCast, abs_of_nonneg (not_lt.mp hs)]

/-- C7: converting any in-range step count to arc notation with
`steps_to_arc` and feeding the rebuilt arcmin.arcsec value (sign
reapplied) back through `arc_to_steps` recovers the step count — in
fact exactly, hence within one step of rounding. -/
theorem arc_steps_roundtrip (s : ℤ) (_h : |s| ≤ MAX_STEPS) :
    arc_to_steps (arcValue s) = s ∧ |arc_to_steps (arcValue s) - s| ≤ 1 := by
  have he := arc_roundtrip_exact s
  rw [he]
  simp

/-- Witness for C7 at `s = 7`. -/
theorem arc_steps_roundtrip_witness :
    arc_to_steps (arcValue 7) = 7 ∧ |arc_to_steps (arcValue 7) - 7| ≤ 1 :=
  arc_steps_roundtrip 7 (by decide)

/-- C10: `arc_to_steps` is an odd function — the magnitude is converted
from `|v|` and the input's sign is reapplied afterwards, so negating
the input negates the result. -/
theorem arc_to_steps_odd (v : ℚ) : arc_to_steps (-v) = -arc_to_steps v := by
  rcases lt_trichotomy v 0 with h | h | h
  · have h1 : (0:ℚ) ≤ -v := by linarith
    have h2 : ¬ ((0:ℚ) ≤ v) := not_le.mpr h
    simp only [arc_to_steps, abs_neg]
    rw [if_pos h1, if_neg h2, neg_neg]
  · subst h
    norm_num [arc_to_steps, pyRound]
  · have h1 : ¬ ((0:ℚ) ≤ -v) := by linarith
    have h2 : (0:ℚ) ≤ v := h.le
    simp only [arc_to_steps, abs_neg]
    rw [if_neg h1, if_pos h2]

end Polar
